import Mathlib

/-!
Verification of the libredefender core against its specification.

The scan pipeline (src/scan.rs), the scheduler (src/schedule.rs) and the
persistent database (src/db.rs) are shallowly embedded below.  Paths and
file names are modelled as `String` (a `none` file name stands for a
non-UTF-8 OS string), file sizes as `Nat`, instants as integer seconds and
durations as `Int` seconds.  Exclude patterns are modelled as abstract
boolean predicates on paths, exactly the interface `Pattern::matches`
exposes to `scan::matches`.
-/

namespace LibreDefender

/-! ## Exclusion filter (src/scan.rs) -/

/-- File types distinguished by `scan::should_be_skipped`. -/
inductive FType where
  | file
  | dir
  | symlink
  | socket
  | fifo
  | blockDev
  | charDev
deriving DecidableEq, Repr

/-- A `walkdir::DirEntry` as seen by the exclusion filter: the base name
(`none` when the OS string is not valid UTF-8), the full path, the file
type, and the metadata (`some size` when readable, `none` on error). -/
structure DirEntry where
  file_name : Option String
  path : String
  ftype : FType
  metadata : Option Nat

/-- An exclude pattern, abstracted to the predicate it induces on paths. -/
def Pattern : Type := String → Bool

/-- `ScanConfig` fields used by the exclusion filter. -/
structure ScanConfig where
  excludes : List Pattern
  skip_hidden : Bool
  skip_larger_than : Option Nat

/-- `scan::is_hidden`: a name is hidden when it is valid UTF-8, differs
from `.` and `..`, and starts with a dot. -/
def is_hidden (entry : Option String) : Bool :=
  match entry with
  | none => false
  | some s => s ≠ "." && s ≠ ".." && s.toList.head? = some '.'

/-- `scan::matches` (named `scanMatches` since `matches` is reserved in Lean): the exclusion filter.  Checks, short-circuiting:
hidden name (when `skip_hidden`), exclude patterns, size ceiling (files
with readable metadata only); otherwise accepts. -/
def scanMatches (config : ScanConfig) (e : DirEntry) : Bool :=
  if config.skip_hidden && is_hidden e.file_name then false
  else if config.excludes.any (fun ex => ex e.path) then false
  else
    match config.skip_larger_than with
    | some limit =>
      if e.ftype = FType.file then
        match e.metadata with
        | some size => if size > limit then false else true
        | none => true
      else true
    | none => true

/-- `scan::should_be_skipped`: entry types that are never submitted for
scanning, with the log reason. -/
def should_be_skipped (ft : FType) : Option String :=
  if ft = FType.dir then some "Traversing directory"
  else if ft = FType.symlink then some "Skipping symlink"
  else if ft = FType.socket then some "Skipping unix socket"
  else if ft = FType.fifo then some "Skipping fifo"
  else if ft = FType.blockDev then some "Skipping block device"
  else if ft = FType.charDev then some "Skipping char device"
  else none

/-! ## Preferred hours (src/schedule.rs)

A `chrono::NaiveTime` is modelled as its second-of-day (a `Nat` below
86400), a `DateTime<Local>` as the total count of seconds since an epoch
in local time (days are uniform, 86400 seconds), and a `chrono::Duration`
as an `Int` count of seconds. -/

/-- Seconds per day. -/
def secsPerDay : Nat := 86400

/-- `DateTime::time()`: the second-of-day of an instant. -/
def timeOfDay (dt : Nat) : Nat := dt % secsPerDay

/-- The instant at 00:00:00 of the day `dt` lies in; `with_ymd_and_hms`
with a second-of-day `s` on that day yields `dayStart dt + s`. -/
def dayStart (dt : Nat) : Nat := dt / secsPerDay * secsPerDay

/-- `schedule::PreferedHours` (source spelling): a daily window given by
two times of day. -/
structure PreferedHours where
  start : Nat
  «end» : Nat
deriving DecidableEq, Repr

/-- `PreferedHours::until_next_start`: zero when
`start <= t && (end > t || end < start)`; otherwise the duration to
today's start instant when `t < start`, else to tomorrow's. -/
def until_next_start (ph : PreferedHours) (dt : Nat) : Int :=
  let t := timeOfDay dt
  if ph.start ≤ t ∧ (ph.«end» > t ∨ ph.«end» < ph.start) then 0
  else if t < ph.start then
    ((dayStart dt + ph.start : Int)) - (dt : Int)
  else
    ((dayStart dt + ph.start + secsPerDay : Int)) - (dt : Int)

/-- `PreferedHours::until_next_end`: the duration to today's end instant
when `end > t`, else to tomorrow's. -/
def until_next_end (ph : PreferedHours) (dt : Nat) : Int :=
  let t := timeOfDay dt
  if ph.«end» > t then
    ((dayStart dt + ph.«end» : Int)) - (dt : Int)
  else
    ((dayStart dt + ph.«end» + secsPerDay : Int)) - (dt : Int)

/-- Modelled from the spec: the wraparound-aware window membership test of
§4.5 — `t` is inside `[start, end)` iff `start ≤ t < end` for a same-day
window (`start < end`), or `t ≥ start ∨ t < end` for an overnight window
(`end ≤ start`).  This definition follows the spec's words and is compared
against the code's `until_next_start` zero condition. -/
def specInsideWindow (ph : PreferedHours) (t : Nat) : Bool :=
  if ph.start < ph.«end» then decide (ph.start ≤ t ∧ t < ph.«end»)
  else decide (t ≥ ph.start ∨ t < ph.«end»)

/-! ## Scheduler delay computation and loop (src/schedule.rs) -/

/-- The fixed scan interval of `schedule::run`: 24 hours, in seconds. -/
def interval : Int := 86400

/-- The delay computation of `schedule::run` (the `let sleep = ...`
expression): zero without a `last_scan` or when more than `interval` has
elapsed; otherwise `interval - elapsed` without preferred hours, and
`until_next_start + jitter` with them, where `jitter` stands for the
value drawn by `rng.gen_range(0..(end - start).num_seconds())`. -/
def computeSleep (preferred : Option PreferedHours) (lastScan : Option Nat)
    (now : Nat) (jitter : Int) : Int :=
  match lastScan with
  | none => 0
  | some last =>
    let elapsed : Int := (now : Int) - (last : Int)
    if elapsed > interval then 0
    else
      match preferred with
      | none => interval - elapsed
      | some ph => until_next_start ph now + jitter

/-- The observable actions of one iteration of the `schedule::run` loop,
in program order. -/
inductive SchedEvent where
  | loadConfig
  | gateBattery
  | gatePolicy
  | loadDb
  | computeDelay
  | sleep (d : Int)
  | scan
deriving DecidableEq, Repr

/-- The environment one scheduler iteration runs against: outcomes of the
fallible gate steps and the data the delay computation reads. -/
structure SchedInput where
  configOk : Bool
  skipOnBattery : Bool
  batteryDischarging : Bool
  automaticScans : Option String
  dbOk : Bool
  lastScan : Option Nat
  preferred : Option PreferedHours
  now : Nat
  jitter : Int

/-- The `automatic_scans` match of `schedule::run`: `Some("off")` skips,
`Some("daily")` and `None` proceed, any other value is invalid and skips. -/
def policySkips (a : Option String) : Bool :=
  match a with
  | none => false
  | some s => !(s == "daily")

/-- One iteration of the `schedule::run` loop as the list of its events:
config load, battery gate (when `skip_on_battery`), policy gate, database
load, then the delay computation, the sleep, and the scan; every gate that
skips ends the iteration with a fixed `interval` sleep (`continue`). -/
def schedIter (inp : SchedInput) : List SchedEvent :=
  let afterDb : List SchedEvent :=
    [SchedEvent.computeDelay,
     SchedEvent.sleep (computeSleep inp.preferred inp.lastScan inp.now inp.jitter),
     SchedEvent.scan]
  let afterPolicy : List SchedEvent :=
    SchedEvent.loadDb ::
      (if inp.dbOk then afterDb else [SchedEvent.sleep interval])
  let afterBattery : List SchedEvent :=
    SchedEvent.gatePolicy ::
      (if policySkips inp.automaticScans then [SchedEvent.sleep interval]
       else afterPolicy)
  let afterConfig : List SchedEvent :=
    if inp.skipOnBattery then
      SchedEvent.gateBattery ::
        (if inp.batteryDischarging then [SchedEvent.sleep interval]
         else afterBattery)
    else afterBattery
  SchedEvent.loadConfig ::
    (if inp.configOk then afterConfig else [SchedEvent.sleep interval])

/-- The gate checks of the scheduler loop: configuration load, battery
state, automatic-scans policy, state load. -/
def isGate : SchedEvent → Bool
  | SchedEvent.loadConfig => true
  | SchedEvent.gateBattery => true
  | SchedEvent.gatePolicy => true
  | SchedEvent.loadDb => true
  | _ => false

/-- Whether an event is a sleep. -/
def isSleep : SchedEvent → Bool
  | SchedEvent.sleep _ => true
  | _ => false

/-- The ordering the spec asserts of one iteration: no gate check happens
before the first sleep (gates are evaluated only after waking). -/
def gatesAfterSleep (evs : List SchedEvent) : Bool :=
  (evs.takeWhile (fun e => !(isSleep e))).all (fun e => !(isGate e))

/-! ## Robust sleep (src/schedule.rs)

`robust_sleep` interacts with a wall clock: it reads the clock, sleeps,
and reads it again.  The clock is modelled as a function `osc` mapping the
current instant and a requested sleep duration to the instant observed
after the sleep; an honest clock satisfies `t + d ≤ osc t d` (a sleep
waits at least the requested duration; the process may additionally be
paused).  The loop is given fuel; the theorems show a computable amount of
fuel always suffices. -/

/-- The loop of `schedule::robust_sleep` against target instant `target`:
while `remaining = target - now` is positive, sleep
`min 600s remaining` and re-read the clock.  Returns the list of sleep
increments, or `none` when the fuel runs out. -/
def robustSleepLoop (osc : Int → Int → Int) (target : Int) :
    Nat → Int → Option (List Int)
  | 0, now => if target - now ≤ 0 then some [] else none
  | fuel + 1, now =>
    if target - now ≤ 0 then some []
    else
      let next := min 600 (target - now)
      match robustSleepLoop osc target fuel (osc now next) with
      | some l => some (next :: l)
      | none => none

/-- `schedule::robust_sleep`: computes the absolute target instant
`now + sleep` once, then runs the bounded-increment loop. -/
def robust_sleep (osc : Int → Int → Int) (now : Int) (sleep : Int)
    (fuel : Nat) : Option (List Int) :=
  robustSleepLoop osc (now + sleep) fuel now

/-- The instant observed after performing a list of sleeps from `now`. -/
def applySleeps (osc : Int → Int → Int) : Int → List Int → Int
  | now, [] => now
  | now, d :: l => applySleeps osc (osc now d) l

/-! ## Scan run and persistence (src/scan.rs, src/db.rs) -/

/-- `db::Data`: the persistent state.  The `HashMap<PathBuf, Vec<String>>`
of threats is modelled as an association list. -/
structure Data where
  last_scan : Option Nat
  threats : List (String × List String)
  signature_count : Nat
  signatures_age : Option Int
deriving DecidableEq, Repr

/-- `data.threats.entry(path).or_default().push(name)`: append `name` to
the list stored at `path`, inserting an entry when absent. -/
def addThreat : List (String × List String) → String → String →
    List (String × List String)
  | [], p, n => [(p, [n])]
  | (q, l) :: rest, p, n =>
    if q = p then (q, l ++ [n]) :: rest else (q, l) :: addThreat rest p n

/-- The persistence-relevant actions of `scan::run`, in program order:
clearing the in-memory threat record and writing the state file
(`Database::store`, tagged with the data written). -/
inductive ScanEvent where
  | clear
  | persist (d : Data)
deriving DecidableEq, Repr

/-- `scan::run` as a function of its environment: the loaded state `db0`,
whether `Scanner::new` succeeds, the signature count and age it reports,
the canonicalization function (`none` = `fs::canonicalize` failed, the
original path is kept), the aggregated results in channel order, and the
completion instant.  Returns the final in-memory data (`none` when the
run aborts) and the persistence trace. -/
def scanRun (db0 : Data) (scannerOk : Bool) (sigCount : Nat) (sigAge : Int)
    (canon : String → Option String) (results : List (String × String))
    (now : Nat) : Option Data × List ScanEvent :=
  let data1 : Data := { db0 with threats := [] }
  if scannerOk then
    let data2 : Data :=
      { data1 with signature_count := sigCount, signatures_age := some sigAge }
    let data3 : Data := results.foldl
      (fun d pr =>
        { d with threats := addThreat d.threats ((canon pr.1).getD pr.1) pr.2 })
      data2
    let data4 : Data := { data3 with last_scan := some now }
    (some data4, [ScanEvent.clear, ScanEvent.persist data4])
  else
    (none, [ScanEvent.clear])

/-- Whether a scan event is a persistence. -/
def isPersist : ScanEvent → Bool
  | ScanEvent.persist _ => true
  | _ => false

/-! ## Database header parsing (src/scan.rs)

Byte buffers are modelled as `List Char` (the header is ASCII). -/

/-- `memchr::memchr`: index of the first occurrence of `c`, if any. -/
def memchr (c : Char) : List Char → Option Nat
  | [] => none
  | x :: xs => if x = c then some 0 else (memchr c xs).map (· + 1)

/-- The `for i in 0..n` loop of `parse_database_age`: repeatedly locate
the next `:` and drop through it; fails when a colon is missing. -/
def skipFields : Nat → List Char → Option (List Char)
  | 0, buf => some buf
  | n + 1, buf =>
    match memchr ':' buf with
    | none => none
    | some idx => skipFields n (buf.drop (idx + 1))

/-- A decimal digit's value. -/
def digitVal (c : Char) : Option Nat :=
  if c.isDigit then some (c.toNat - 48) else none

/-- Parse a nonempty all-digit sequence as a `Nat`. -/
def parseDigits (l : List Char) : Option Nat :=
  if l.isEmpty then none
  else
    l.foldl
      (fun acc c => do
        let a ← acc
        let d ← digitVal c
        pure (a * 10 + d))
      (some 0)

/-- `atoi::atoi::<i64>`: an optional sign followed by one or more digits;
any other byte anywhere makes the parse fail.  (i64 overflow is not
modelled; the parsed fields are far below the i64 range.) -/
def atoi (l : List Char) : Option Int :=
  match l with
  | '-' :: rest => (parseDigits rest).map (fun n => -(n : Int))
  | '+' :: rest => (parseDigits rest).map (fun n => (n : Int))
  | _ => (parseDigits l).map (fun n => (n : Int))

/-- `scan::parse_database_age`: skip 8 colon-delimited fields, cut the
9th field at the first space, and parse it as a Unix timestamp.  The
returned `DateTime<Utc>` (`Utc.timestamp(num, 0)`) is modelled as the
Unix timestamp itself. -/
def parse_database_age (buf : List Char) : Option Int := do
  let rest ← skipFields 8 buf
  let idx ← memchr ' ' rest
  atoi (rest.take idx)

/-- Days from civil date (proleptic Gregorian), days since 1970-01-01. -/
def daysFromCivil (y : Int) (m : Nat) (d : Nat) : Int :=
  let y' : Int := if m ≤ 2 then y - 1 else y
  let era : Int := (if 0 ≤ y' then y' else y' - 399) / 400
  let yoe : Int := y' - era * 400
  let mp : Int := ((m : Int) + 9) % 12
  let doy : Int := (153 * mp + 2) / 5 + (d : Int) - 1
  let doe : Int := yoe * 365 + yoe / 4 - yoe / 100 + doy
  era * 146097 + doe - 719468

/-- A civil UTC datetime as a Unix timestamp. -/
def civilToUnix (y : Int) (m d h mi s : Nat) : Int :=
  daysFromCivil y m d * 86400 + (h : Int) * 3600 + (mi : Int) * 60 + (s : Int)

/-- The literal header of the test vector. -/
def clamavHeader : List Char :=
  "ClamAV-VDB:09 May 2021 07-08 -0400:26165:3978101:63:X:X:raynman:1620558516    ".toList

/-! ## Scanner construction (src/scan.rs) -/

/-- `scan::read_clamav_header`: fails when the buffer is not exactly 512
bytes, when the database file cannot be opened, or when fewer than 512
bytes can be read (`read_exact`); otherwise yields the first 512 bytes. -/
def read_clamav_header (openOk : Bool) (contents : List Char)
    (bufLen : Nat) : Except String (List Char) :=
  if bufLen ≠ 512 then Except.error "Buffer has wrong size"
  else if !openOk then Except.error "Failed to open clamav database"
  else if contents.length < 512 then
    Except.error "Failed to read header from clamav database"
  else Except.ok (contents.take 512)

/-- The fields of `scan::Scanner` this model tracks. -/
structure Scanner where
  signature_count : Nat
  signatures_age : Int
deriving DecidableEq, Repr

/-- `Scanner::new` as a function of its environment: whether
`load_databases` succeeds and the count it reports, whether a daily
database file was found and can be opened, its contents, and whether
`compile` succeeds.  Reads the 512-byte header into `[0; 512]` and parses
the database age before compiling. -/
def scannerNew (loadOk : Bool) (sigCount : Nat) (dailyFound : Bool)
    (openOk : Bool) (daily : List Char) (compileOk : Bool) :
    Except String Scanner :=
  if !loadOk then Except.error "Failed to load clamav database"
  else if !dailyFound then Except.error "Could not find clamav database file"
  else
    match read_clamav_header openOk daily 512 with
    | Except.error e => Except.error e
    | Except.ok buf =>
      match parse_database_age buf with
      | none => Except.error "Failed to parse database age"
      | some age =>
        if !compileOk then Except.error "Failed to compile clamav rules"
        else Except.ok { signature_count := sigCount, signatures_age := age }

/-- Whether an `Except` is a success. -/
def isOkE {α : Type} (r : Except String α) : Bool :=
  match r with
  | Except.ok _ => true
  | Except.error _ => false

/-! ## Theorems -/

/-- Helper: any entry sharing the hidden file name of a hidden entry is
rejected by the filter when `skip_hidden` is on, whatever its other
fields. -/
theorem scanMatches_false_of_hidden (cfg : ScanConfig) (e : DirEntry)
    (hsk : cfg.skip_hidden = true) (hh : is_hidden e.file_name = true) :
    scanMatches cfg e = false := by
  unfold scanMatches
  rw [hsk, hh]
  rfl

/-- C1 counterexample: the claim that directories always pass the
exclusion filter regardless of `skip_hidden` is false — a directory named
`.git` is rejected when `skip_hidden` is set. -/
theorem c1_hidden_directory_rejected :
    (DirEntry.mk (some ".git") "/home/user/.git" FType.dir none).ftype
        = FType.dir ∧
    scanMatches (ScanConfig.mk [] true none)
        (DirEntry.mk (some ".git") "/home/user/.git" FType.dir none) = false := by
  exact ⟨rfl, rfl⟩

/-- C1 (amended): a directory entry is exempt from the size ceiling — it
passes the filter whenever the hidden-name rule and the exclude patterns
do not reject it, whatever `skip_larger_than` is — and directories that
pass are still never submitted for scanning, because
`should_be_skipped` returns a skip reason for every directory. -/
theorem c1_directory_filter (cfg : ScanConfig) (e : DirEntry)
    (hd : e.ftype = FType.dir)
    (hh : (cfg.skip_hidden && is_hidden e.file_name) = false)
    (hx : cfg.excludes.any (fun ex => ex e.path) = false) :
    scanMatches cfg e = true ∧
    should_be_skipped e.ftype = some "Traversing directory" := by
  constructor
  · unfold scanMatches
    rw [hh, hx]
    simp only [Bool.false_eq_true, if_false]
    cases hml : cfg.skip_larger_than with
    | none => rfl
    | some limit => simp [hd]
  · rw [hd]
    rfl

/-- C1 witness. -/
theorem c1_directory_filter_witness :
    scanMatches (ScanConfig.mk [] true (some 100))
        (DirEntry.mk (some "docs") "/home/user/docs" FType.dir none) = true ∧
    should_be_skipped FType.dir = some "Traversing directory" :=
  c1_directory_filter (ScanConfig.mk [] true (some 100))
    (DirEntry.mk (some "docs") "/home/user/docs" FType.dir none)
    rfl rfl rfl

/-- C5: when `skip_hidden` is set, any entry whose base name is a UTF-8
string starting with `.` and distinct from `.` and `..` is rejected by
the filter, and the decision is the same for every entry type. -/
theorem c5_hidden_rejected (cfg : ScanConfig) (e : DirEntry) (s : String)
    (hn : e.file_name = some s) (h1 : s.toList.head? = some '.')
    (h2 : s ≠ ".") (h3 : s ≠ "..") (hsk : cfg.skip_hidden = true) :
    scanMatches cfg e = false ∧
    ∀ ft : FType, scanMatches cfg { e with ftype := ft } = false := by
  have hh : ∀ e' : DirEntry, e'.file_name = some s →
      is_hidden e'.file_name = true := by
    intro e' hn'
    rw [hn']
    simp [is_hidden, h2, h3, show s.data.head? = some '.' from h1]
  exact ⟨scanMatches_false_of_hidden cfg e hsk (hh e hn),
    fun ft => scanMatches_false_of_hidden cfg _ hsk (hh _ hn)⟩

/-- C5 witness. -/
theorem c5_hidden_rejected_witness :
    scanMatches (ScanConfig.mk [] true none)
        (DirEntry.mk (some ".cache") "/home/user/.cache" FType.file (some 10))
        = false ∧
    ∀ ft : FType,
      scanMatches (ScanConfig.mk [] true none)
        { DirEntry.mk (some ".cache") "/home/user/.cache" FType.file (some 10)
            with ftype := ft } = false :=
  c5_hidden_rejected (ScanConfig.mk [] true none)
    (DirEntry.mk (some ".cache") "/home/user/.cache" FType.file (some 10))
    ".cache" rfl rfl (by decide) (by decide) rfl

/-- C6: with a size ceiling configured, and the hidden rule and exclude
patterns not rejecting the entry, the filter rejects exactly the regular
files with readable metadata whose size strictly exceeds the ceiling; in
particular a file whose size equals the ceiling passes, and an entry with
unreadable metadata passes. -/
theorem c6_size_ceiling (cfg : ScanConfig) (e : DirEntry) (limit : Nat)
    (hl : cfg.skip_larger_than = some limit)
    (hh : (cfg.skip_hidden && is_hidden e.file_name) = false)
    (hx : cfg.excludes.any (fun ex => ex e.path) = false) :
    (scanMatches cfg e = false ↔
      e.ftype = FType.file ∧ ∃ size, e.metadata = some size ∧ limit < size) ∧
    (e.metadata = some limit → scanMatches cfg e = true) ∧
    (e.metadata = none → scanMatches cfg e = true) := by
  have hiff : scanMatches cfg e = false ↔
      e.ftype = FType.file ∧ ∃ size, e.metadata = some size ∧ limit < size := by
    unfold scanMatches
    rw [hh, hx, hl]
    simp only [Bool.false_eq_true, if_false]
    by_cases hf : e.ftype = FType.file
    · simp only [hf, if_true]
      cases hmd : e.metadata with
      | none => simp
      | some size =>
        by_cases hs : size > limit
        · simp [hs]
        · simp [hs]
    · simp [hf]
  refine ⟨hiff, ?_, ?_⟩
  · intro hmd
    cases hres : scanMatches cfg e with
    | true => rfl
    | false =>
      rcases hiff.mp hres with ⟨-, size, hsz, hlt⟩
      rw [hmd] at hsz
      cases hsz
      exact absurd hlt (Nat.lt_irrefl _)
  · intro hmd
    cases hres : scanMatches cfg e with
    | true => rfl
    | false =>
      rcases hiff.mp hres with ⟨-, size, hsz, -⟩
      rw [hmd] at hsz
      cases hsz

/-- C6 witness. -/
theorem c6_size_ceiling_witness :
    (scanMatches (ScanConfig.mk [] false (some 100))
        (DirEntry.mk (some "big") "/home/user/big" FType.file (some 100))
        = false ↔
      (DirEntry.mk (some "big") "/home/user/big" FType.file
          (some 100)).ftype = FType.file ∧
        ∃ size,
          (DirEntry.mk (some "big") "/home/user/big" FType.file
              (some 100)).metadata = some size ∧ 100 < size) ∧
    ((DirEntry.mk (some "big") "/home/user/big" FType.file
        (some 100)).metadata = some 100 →
      scanMatches (ScanConfig.mk [] false (some 100))
        (DirEntry.mk (some "big") "/home/user/big" FType.file (some 100))
        = true) ∧
    ((DirEntry.mk (some "big") "/home/user/big" FType.file
        (some 100)).metadata = none →
      scanMatches (ScanConfig.mk [] false (some 100))
        (DirEntry.mk (some "big") "/home/user/big" FType.file (some 100))
        = true) :=
  c6_size_ceiling (ScanConfig.mk [] false (some 100))
    (DirEntry.mk (some "big") "/home/user/big" FType.file (some 100))
    100 rfl rfl rfl

/-- C2 counterexample: at 05:00 the overnight window 19:00–09:00 contains
the instant under the spec's wraparound-aware membership test, yet
`until_next_start` is not zero (the code returns the 14 hours to today's
19:00). -/
theorem c2_inside_but_nonzero :
    specInsideWindow (PreferedHours.mk (19 * 3600) (9 * 3600))
        (timeOfDay (5 * 3600)) = true ∧
    until_next_start (PreferedHours.mk (19 * 3600) (9 * 3600)) (5 * 3600)
        = 14 * 3600 := by
  decide

/-- C2 (amended): `until_next_start` is zero exactly when
`start ≤ t ∧ (t < end ∨ end < start)` — in an overnight window the early
hours before `end` do not count — otherwise it is the time to today's
start when `t < start` and to the next day's start when `t ≥ start`;
`until_next_end` is the time to today's end when `t < end` and to
tomorrow's end otherwise; and the window 19:00–09:00 yields 05:23:00 and
19:23:00 at 13:37, and `until_next_start = 0` at 23:37. -/
theorem c2_time_functions (ph : PreferedHours) (dt : Nat) :
    (until_next_start ph dt = 0 ↔
      ph.start ≤ timeOfDay dt ∧
        (timeOfDay dt < ph.«end» ∨ ph.«end» < ph.start)) ∧
    (timeOfDay dt < ph.start →
      until_next_start ph dt =
        ((dayStart dt + ph.start : Int)) - (dt : Int)) ∧
    (until_next_start ph dt ≠ 0 → ph.start ≤ timeOfDay dt →
      until_next_start ph dt =
        ((dayStart dt + ph.start + secsPerDay : Int)) - (dt : Int)) ∧
    (timeOfDay dt < ph.«end» →
      until_next_end ph dt =
        ((dayStart dt + ph.«end» : Int)) - (dt : Int)) ∧
    (¬ timeOfDay dt < ph.«end» →
      until_next_end ph dt =
        ((dayStart dt + ph.«end» + secsPerDay : Int)) - (dt : Int)) ∧
    until_next_start (PreferedHours.mk (19 * 3600) (9 * 3600))
        (13 * 3600 + 37 * 60) = 5 * 3600 + 23 * 60 ∧
    until_next_end (PreferedHours.mk (19 * 3600) (9 * 3600))
        (13 * 3600 + 37 * 60) = 19 * 3600 + 23 * 60 ∧
    until_next_start (PreferedHours.mk (19 * 3600) (9 * 3600))
        (23 * 3600 + 37 * 60) = 0 := by
  have hmod : dt % 86400 < 86400 := Nat.mod_lt _ (by norm_num)
  have hdm : 86400 * (dt / 86400) + dt % 86400 = dt := Nat.div_add_mod dt 86400
  refine ⟨?_, ?_, ?_, ?_, ?_, by decide, by decide, by decide⟩ <;>
    (simp only [until_next_start, until_next_end, timeOfDay, dayStart,
        secsPerDay]
     split_ifs <;> omega)

/-- C2 witness. -/
theorem c2_time_functions_witness :
    until_next_start (PreferedHours.mk (19 * 3600) (9 * 3600))
        (23 * 3600 + 37 * 60) = 0 ∧
    until_next_start (PreferedHours.mk (19 * 3600) (9 * 3600))
        (13 * 3600 + 37 * 60) =
      ((dayStart (13 * 3600 + 37 * 60) + 19 * 3600 : Int))
        - ((13 * 3600 + 37 * 60 : Nat) : Int) ∧
    until_next_end (PreferedHours.mk (19 * 3600) (9 * 3600))
        (13 * 3600 + 37 * 60) =
      ((dayStart (13 * 3600 + 37 * 60) + 9 * 3600 + secsPerDay : Int))
        - ((13 * 3600 + 37 * 60 : Nat) : Int) :=
  ⟨(c2_time_functions (PreferedHours.mk (19 * 3600) (9 * 3600))
      (23 * 3600 + 37 * 60)).1.mpr (by decide),
   (c2_time_functions (PreferedHours.mk (19 * 3600) (9 * 3600))
      (13 * 3600 + 37 * 60)).2.1 (by decide),
   (c2_time_functions (PreferedHours.mk (19 * 3600) (9 * 3600))
      (13 * 3600 + 37 * 60)).2.2.2.2.1 (by decide)⟩

/-- C4: with the interval fixed at 24 hours, the scheduler's delay is
zero without a `last_scan`, zero when the elapsed time exceeds the
interval, `interval - elapsed` without preferred hours, and with
preferred hours `until_next_start` plus the drawn jitter — so for any
jitter in `[0, until_next_end - until_next_start)` the delay lies in
`[until_next_start, until_next_end)`. -/
theorem c4_compute_sleep (now : Nat) (j : Int) :
    (∀ pref : Option PreferedHours, computeSleep pref none now j = 0) ∧
    (∀ (pref : Option PreferedHours) (last : Nat),
      (now : Int) - (last : Int) > interval →
      computeSleep pref (some last) now j = 0) ∧
    (∀ last : Nat, ¬ ((now : Int) - (last : Int) > interval) →
      computeSleep none (some last) now j =
        interval - ((now : Int) - (last : Int))) ∧
    (∀ (ph : PreferedHours) (last : Nat),
      ¬ ((now : Int) - (last : Int) > interval) →
      0 ≤ j → j < until_next_end ph now - until_next_start ph now →
      until_next_start ph now ≤ computeSleep (some ph) (some last) now j ∧
      computeSleep (some ph) (some last) now j < until_next_end ph now) := by
  refine ⟨fun pref => rfl, ?_, ?_, ?_⟩
  · intro pref last h
    simp only [computeSleep]
    rw [if_pos h]
  · intro last h
    simp only [computeSleep]
    rw [if_neg h]
  · intro ph last h h0 hj
    simp only [computeSleep]
    rw [if_neg h]
    omega

/-- C4 witness. -/
theorem c4_compute_sleep_witness :
    computeSleep none none 49020 5 = 0 ∧
    computeSleep none (some 0) 200000 5 = 0 ∧
    computeSleep none (some 40000) 49020 5 =
      interval - ((49020 : Int) - (40000 : Int)) ∧
    until_next_start (PreferedHours.mk (9 * 3600) (19 * 3600)) 49020 ≤
      computeSleep (some (PreferedHours.mk (9 * 3600) (19 * 3600)))
        (some 40000) 49020 5 ∧
    computeSleep (some (PreferedHours.mk (9 * 3600) (19 * 3600)))
        (some 40000) 49020 5 <
      until_next_end (PreferedHours.mk (9 * 3600) (19 * 3600)) 49020 :=
  ⟨(c4_compute_sleep 49020 5).1 none,
   (c4_compute_sleep 200000 5).2.1 none 0 (by decide),
   (c4_compute_sleep 49020 5).2.2.1 40000 (by decide),
   ((c4_compute_sleep 49020 5).2.2.2 (PreferedHours.mk (9 * 3600) (19 * 3600))
     40000 (by decide) (by decide) (by decide)).1,
   ((c4_compute_sleep 49020 5).2.2.2 (PreferedHours.mk (9 * 3600) (19 * 3600))
     40000 (by decide) (by decide) (by decide)).2⟩

/-- C3 counterexample: in an iteration where every gate passes, the gate
checks happen before the computed sleep, not after waking from it — the
prefix of the trace before the first sleep already contains gate
events. -/
theorem c3_gates_precede_sleep :
    gatesAfterSleep
      (schedIter (SchedInput.mk true false false none true none none 0 0))
      = false := by
  decide

/-- C3 (amended): in every iteration of the scheduler loop the gate
checks form a prefix of the trace — they run before the delay
computation, the sleep and the scan, in the order
Gate checks → ComputeDelay → Sleeping → Scanning; an iteration that
scans is exactly gates, delay computation, the computed sleep, the scan;
and an iteration skipped by a gate ends with one fixed 24-hour sleep and
never runs the delay computation. -/
theorem c3_iteration_order (inp : SchedInput) :
    (∀ e ∈ (schedIter inp).dropWhile isGate, isGate e = false) ∧
    (SchedEvent.scan ∈ schedIter inp →
      schedIter inp =
        (schedIter inp).takeWhile isGate ++
          [SchedEvent.computeDelay,
           SchedEvent.sleep
             (computeSleep inp.preferred inp.lastScan inp.now inp.jitter),
           SchedEvent.scan]) ∧
    (SchedEvent.scan ∉ schedIter inp →
      (schedIter inp).getLast? = some (SchedEvent.sleep interval) ∧
      SchedEvent.computeDelay ∉ schedIter inp) := by
  rcases inp with ⟨configOk, skipOnBattery, batteryDischarging, aScans, dbOk,
    lastScan, preferred, now, jitter⟩
  simp only [schedIter]
  cases configOk <;> cases skipOnBattery <;> cases batteryDischarging <;>
    cases hpol : policySkips aScans <;> cases dbOk <;>
      simp [hpol, isGate, List.dropWhile, List.takeWhile]

/-- C3 witness. -/
theorem c3_iteration_order_witness :
    schedIter (SchedInput.mk true false false none true none none 0 0) =
      (schedIter
        (SchedInput.mk true false false none true none none 0 0)).takeWhile
          isGate ++
        [SchedEvent.computeDelay, SchedEvent.sleep (computeSleep none none 0 0),
         SchedEvent.scan] ∧
    (schedIter
        (SchedInput.mk false false false none true none none 0 0)).getLast?
      = some (SchedEvent.sleep interval) :=
  ⟨(c3_iteration_order
      (SchedInput.mk true false false none true none none 0 0)).2.1
      (by decide),
   ((c3_iteration_order
      (SchedInput.mk false false false none true none none 0 0)).2.2
      (by decide)).1⟩

/-- Helper: against an honest clock (`t + d ≤ osc t d`), the robust-sleep
loop returns once the fuel exceeds the remaining time, every increment is
positive and at most 600 seconds, and at return the remaining time is not
positive. -/
theorem robustSleepLoop_spec (osc : Int → Int → Int)
    (hosc : ∀ t d, t + d ≤ osc t d) (target : Int) :
    ∀ (fuel : Nat) (now : Int), target - now < (fuel : Int) + 1 →
      ∃ l, robustSleepLoop osc target fuel now = some l ∧
        (∀ d ∈ l, 0 < d ∧ d ≤ 600) ∧
        target - applySleeps osc now l ≤ 0 := by
  intro fuel
  induction fuel with
  | zero =>
    intro now h
    refine ⟨[], ?_, by simp, ?_⟩
    · simp only [robustSleepLoop]
      rw [if_pos (by omega)]
    · simpa [applySleeps] using (by omega : target - now ≤ 0)
  | succ fuel ih =>
    intro now h
    by_cases hr : target - now ≤ 0
    · refine ⟨[], ?_, by simp, by simpa [applySleeps] using hr⟩
      simp only [robustSleepLoop]
      rw [if_pos hr]
    · have hnext : (0 : Int) < min 600 (target - now) := by omega
      have hstep := hosc now (min 600 (target - now))
      have hrec : target - osc now (min 600 (target - now)) < (fuel : Int) + 1 := by
        omega
      obtain ⟨l, heq, hl, hfin⟩ := ih (osc now (min 600 (target - now))) hrec
      refine ⟨min 600 (target - now) :: l, ?_, ?_, ?_⟩
      · simp only [robustSleepLoop]
        rw [if_neg hr, heq]
      · intro d hd
        rcases List.mem_cons.mp hd with hd | hd
        · subst hd
          exact ⟨hnext, min_le_left _ _⟩
        · exact hl d hd
      · simpa [applySleeps] using hfin

/-- C7: `robust_sleep` computes the absolute target `now + sleep` once;
against an honest clock it returns once the fuel exceeds the requested
duration, every sleep increment is positive and never exceeds 600
seconds, and on return the recomputed remaining time is ≤ 0; moreover
every increment the loop takes equals `min 600 remaining` for the
remaining time at the clock reading before it, and the loop continues
from the re-read clock. -/
theorem c7_robust_sleep (osc : Int → Int → Int)
    (hosc : ∀ t d, t + d ≤ osc t d) (now sleep : Int) (fuel : Nat)
    (hf : sleep < (fuel : Int) + 1) :
    (∃ l, robust_sleep osc now sleep fuel = some l ∧
      (∀ d ∈ l, 0 < d ∧ d ≤ 600) ∧
      (now + sleep) - applySleeps osc now l ≤ 0) ∧
    (∀ (f : Nat) (n d : Int) (l : List Int),
      robustSleepLoop osc (now + sleep) (f + 1) n = some (d :: l) →
      d = min 600 ((now + sleep) - n) ∧
      robustSleepLoop osc (now + sleep) f (osc n d) = some l) := by
  constructor
  · exact robustSleepLoop_spec osc hosc (now + sleep) fuel now (by omega)
  · intro f n d l heq
    simp only [robustSleepLoop] at heq
    by_cases hr : (now + sleep) - n ≤ 0
    · rw [if_pos hr] at heq
      cases heq
    · rw [if_neg hr] at heq
      rcases hrec : robustSleepLoop osc (now + sleep) f
          (osc n (min 600 (now + sleep - n))) with _ | l'
      · rw [hrec] at heq
        cases heq
      · rw [hrec] at heq
        have hd : d = min 600 (now + sleep - n) ∧ l = l' := by
          cases heq
          exact ⟨rfl, rfl⟩
        refine ⟨hd.1, ?_⟩
        rw [hd.1, hd.2]
        exact hrec

/-- C7 witness. -/
theorem c7_robust_sleep_witness :
    ∃ l, robust_sleep (fun t d => t + d) 0 1500 1501 = some l ∧
      (∀ d ∈ l, 0 < d ∧ d ≤ 600) ∧
      ((0 : Int) + 1500) - applySleeps (fun t d => t + d) 0 l ≤ 0 :=
  (c7_robust_sleep (fun t d => t + d) (fun t d => le_refl (t + d)) 0 1500 1501
    (by norm_num)).1

/-- C8: every scan run clears the prior threat record at its start (the
trace begins with `clear`), accumulates results only in memory, and
persists exactly once, at the very end, after the result channel drains
and the completion time is stamped; a run that aborts before its end
(scanner construction fails) performs no persistence at all, leaving the
stored state file unchanged. -/
theorem c8_scan_persistence (db0 : Data) (scannerOk : Bool) (sigCount : Nat)
    (sigAge : Int) (canon : String → Option String)
    (results : List (String × String)) (now : Nat) :
    ((scanRun db0 scannerOk sigCount sigAge canon results now).2.head?
      = some ScanEvent.clear) ∧
    (∀ d : Data,
      ScanEvent.persist d ∈
          (scanRun db0 scannerOk sigCount sigAge canon results now).2 →
        (scanRun db0 scannerOk sigCount sigAge canon results now).2.getLast?
          = some (ScanEvent.persist d) ∧
        d.last_scan = some now ∧
        (scanRun db0 scannerOk sigCount sigAge canon results now).1
          = some d) ∧
    (((scanRun db0 scannerOk sigCount sigAge canon results now).2.filter
        isPersist).length ≤ 1) ∧
    (scannerOk = false →
      (scanRun db0 scannerOk sigCount sigAge canon results now).1 = none ∧
      ∀ d : Data,
        ScanEvent.persist d ∉
          (scanRun db0 scannerOk sigCount sigAge canon results now).2) := by
  cases scannerOk
  · have htr : (scanRun db0 false sigCount sigAge canon results now).2
        = [ScanEvent.clear] := rfl
    refine ⟨rfl, ?_, ?_, fun _ => ⟨rfl, ?_⟩⟩
    · intro d hd
      rw [htr] at hd
      simp at hd
    · rw [htr]
      simp [isPersist]
    · intro d hd
      rw [htr] at hd
      simp at hd
  · have hres : (scanRun db0 true sigCount sigAge canon results now).1
        = some ((scanRun db0 true sigCount sigAge canon results now).1.getD
            (Data.mk none [] 0 none)) := rfl
    have htr : (scanRun db0 true sigCount sigAge canon results now).2
        = [ScanEvent.clear,
           ScanEvent.persist
             ((scanRun db0 true sigCount sigAge canon results now).1.getD
               (Data.mk none [] 0 none))] := rfl
    have hl : ((scanRun db0 true sigCount sigAge canon results
        now).1.getD (Data.mk none [] 0 none)).last_scan = some now := rfl
    refine ⟨rfl, ?_, ?_, fun h => by cases h⟩
    · intro d hdm
      rw [htr] at hdm
      rcases List.mem_cons.mp hdm with h | h
      · cases h
      · have h' := List.mem_singleton.mp h
        injection h' with h''
        subst h''
        exact ⟨by rw [htr]; rfl, hl, hres⟩
    · rw [htr]
      simp [isPersist]

/-- C8 witness. -/
theorem c8_scan_persistence_witness :
    ((scanRun (Data.mk none [] 0 none) true 7 99 (fun _ => none)
        [("/home/user/evil", "Sig")] 42).2.head? = some ScanEvent.clear) ∧
    ((scanRun (Data.mk none [] 0 none) false 7 99 (fun _ => none)
        [("/home/user/evil", "Sig")] 42).1 = none ∧
      ∀ d : Data,
        ScanEvent.persist d ∉
          (scanRun (Data.mk none [] 0 none) false 7 99 (fun _ => none)
            [("/home/user/evil", "Sig")] 42).2) :=
  ⟨(c8_scan_persistence (Data.mk none [] 0 none) true 7 99 (fun _ => none)
      [("/home/user/evil", "Sig")] 42).1,
   (c8_scan_persistence (Data.mk none [] 0 none) false 7 99 (fun _ => none)
      [("/home/user/evil", "Sig")] 42).2.2.2 rfl⟩

/-- Helper: finding `c` at index `i` accounts for exactly one occurrence:
the part after it holds one fewer. -/
theorem memchr_count_drop (c : Char) :
    ∀ (buf : List Char) (i : Nat), memchr c buf = some i →
      (buf.drop (i + 1)).count c + 1 = buf.count c := by
  intro buf
  induction buf with
  | nil => intro i h; cases h
  | cons x xs ih =>
    intro i h
    simp only [memchr] at h
    by_cases hx : x = c
    · rw [if_pos hx] at h
      injection h with h'
      subst h'
      simp [hx, List.count_cons]
    · rw [if_neg hx] at h
      rcases Option.map_eq_some'.mp h with ⟨j, hj, hij⟩
      subst hij
      have := ih j hj
      simpa [List.count_cons, hx] using this

/-- Helper: skipping `n` colon-delimited fields fails when the buffer
holds fewer than `n` colons. -/
theorem skipFields_none_of_count (n : Nat) :
    ∀ buf : List Char, buf.count ':' < n → skipFields n buf = none := by
  induction n with
  | zero => intro buf h; exact absurd h (Nat.not_lt_zero _)
  | succ n ih =>
    intro buf h
    simp only [skipFields]
    cases hm : memchr ':' buf with
    | none => rfl
    | some i =>
      have hc := memchr_count_drop ':' buf i hm
      exact ih _ (by omega)

/-- C9: on the literal ClamAV header the parser yields the Unix timestamp
of 2021-05-09T11:08:36Z; and the parse fails when fewer than 8 colons are
present, when the 9th field has no terminating space, or when the
space-terminated field does not parse as a number. -/
theorem c9_parse_database_age :
    (parse_database_age clamavHeader = some (civilToUnix 2021 5 9 11 8 36)) ∧
    (civilToUnix 2021 5 9 11 8 36 = 1620558516) ∧
    (∀ buf : List Char, buf.count ':' < 8 → parse_database_age buf = none) ∧
    (∀ buf rest : List Char, skipFields 8 buf = some rest →
      memchr ' ' rest = none → parse_database_age buf = none) ∧
    (∀ (buf rest : List Char) (idx : Nat), skipFields 8 buf = some rest →
      memchr ' ' rest = some idx → atoi (rest.take idx) = none →
      parse_database_age buf = none) := by
  refine ⟨by decide, by decide, ?_, ?_, ?_⟩
  · intro buf h
    unfold parse_database_age
    rw [skipFields_none_of_count 8 buf h]
    rfl
  · intro buf rest h1 h2
    unfold parse_database_age
    rw [h1]
    simp only [Option.bind_eq_bind, Option.some_bind]
    rw [h2]
    rfl
  · intro buf rest idx h1 h2 h3
    unfold parse_database_age
    rw [h1]
    simp only [Option.bind_eq_bind, Option.some_bind]
    rw [h2]
    simp only [Option.some_bind]
    exact h3

/-- C9 witness. -/
theorem c9_parse_database_age_witness :
    parse_database_age "no colons at all".toList = none ∧
    parse_database_age "a:b:c:d:e:f:g:h:1620558516".toList = none ∧
    parse_database_age "a:b:c:d:e:f:g:h:162x558516 ".toList = none :=
  ⟨c9_parse_database_age.2.2.1 "no colons at all".toList (by decide),
   c9_parse_database_age.2.2.2.1 "a:b:c:d:e:f:g:h:1620558516".toList
     "1620558516".toList (by decide) (by decide),
   c9_parse_database_age.2.2.2.2 "a:b:c:d:e:f:g:h:162x558516 ".toList
     "162x558516 ".toList 10 (by decide) (by decide) (by decide)⟩

/-- C10: `read_clamav_header` errors for every buffer length other than
512 and for every database file shorter than 512 bytes; consequently
`Scanner::new` fails whenever the daily database file is shorter than 512
bytes — whatever its contents — and a scan run driven by that failed
construction aborts with no final data. -/
theorem c10_short_database (db0 : Data) (canon : String → Option String)
    (results : List (String × String)) (now : Nat) :
    (∀ (openOk : Bool) (contents : List Char) (bufLen : Nat),
      bufLen ≠ 512 →
      isOkE (read_clamav_header openOk contents bufLen) = false) ∧
    (∀ contents : List Char, contents.length < 512 →
      isOkE (read_clamav_header true contents 512) = false) ∧
    (∀ (loadOk : Bool) (sigCount : Nat) (dailyFound openOk : Bool)
      (daily : List Char) (compileOk : Bool),
      daily.length < 512 →
      isOkE (scannerNew loadOk sigCount dailyFound openOk daily compileOk)
        = false) ∧
    (∀ (loadOk : Bool) (sigCount : Nat) (dailyFound openOk : Bool)
      (daily : List Char) (compileOk : Bool) (sc : Nat) (sa : Int),
      daily.length < 512 →
      (scanRun db0
        (isOkE (scannerNew loadOk sigCount dailyFound openOk daily compileOk))
        sc sa canon results now).1 = none) := by
  have hread : ∀ (openOk : Bool) (daily : List Char), daily.length < 512 →
      ∃ msg, read_clamav_header openOk daily 512 = Except.error msg := by
    intro openOk daily h
    cases openOk
    · exact ⟨"Failed to open clamav database", rfl⟩
    · refine ⟨"Failed to read header from clamav database", ?_⟩
      unfold read_clamav_header
      rw [if_neg (by norm_num), if_neg (by norm_num), if_pos h]
  have hscanner : ∀ (loadOk : Bool) (sigCount : Nat)
      (dailyFound openOk : Bool) (daily : List Char) (compileOk : Bool),
      daily.length < 512 →
      isOkE (scannerNew loadOk sigCount dailyFound openOk daily compileOk)
        = false := by
    intro loadOk sigCount dailyFound openOk daily compileOk h
    cases loadOk
    · rfl
    · cases dailyFound
      · rfl
      · obtain ⟨msg, hmsg⟩ := hread openOk daily h
        unfold scannerNew
        rw [hmsg]
        rfl
  refine ⟨?_, ?_, hscanner, ?_⟩
  · intro openOk contents bufLen hb
    unfold read_clamav_header
    rw [if_pos hb]
    rfl
  · intro contents h
    obtain ⟨msg, hmsg⟩ := hread true contents h
    rw [hmsg]
    rfl
  · intro loadOk sigCount dailyFound openOk daily compileOk sc sa h
    rw [hscanner loadOk sigCount dailyFound openOk daily compileOk h]
    rfl

/-- C10 witness. -/
theorem c10_short_database_witness :
    isOkE (read_clamav_header true [] 100) = false ∧
    isOkE (read_clamav_header true "ClamAV-VDB:short".toList 512) = false ∧
    isOkE (scannerNew true 7 true true "ClamAV-VDB:short".toList true)
      = false ∧
    (scanRun (Data.mk none [] 0 none)
      (isOkE (scannerNew true 7 true true "ClamAV-VDB:short".toList true))
      7 99 (fun _ => none) [] 42).1 = none :=
  ⟨(c10_short_database (Data.mk none [] 0 none) (fun _ => none) [] 42).1
      true [] 100 (by decide),
   (c10_short_database (Data.mk none [] 0 none) (fun _ => none) [] 42).2.1
      "ClamAV-VDB:short".toList (by decide),
   (c10_short_database (Data.mk none [] 0 none) (fun _ => none) [] 42).2.2.1
      true 7 true true "ClamAV-VDB:short".toList true (by decide),
   (c10_short_database (Data.mk none [] 0 none) (fun _ => none) [] 42).2.2.2
      true 7 true true "ClamAV-VDB:short".toList true 7 99 (by decide)⟩

end LibreDefender
